import Mathlib

/-!
# Verification of the Pumpkin block-state codec and redstone engine

Shallow embedding of the block/redstone core of the Pumpkin server:

* the generated mixed-radix block-property codec
  (`pumpkin-data/build/block.rs`, `BlockPropertyStruct::to_tokens`);
* the redstone power-view queries (`pumpkin/src/block/redstone_view.rs`);
* the redstone-wire block behavior
  (`pumpkin/src/block/blocks/redstone_wire.rs`).

Machine integers (`u16`, `u8`) are embedded as `Nat` with an explicit
`% 65536` where the source arithmetic is over `u16` and could overflow.
The file is organised as definitions first, then theorems.
-/

namespace Pumpkin

/-! ## Generated mixed-radix property codec (`build/block.rs`)

The build step generates, for every block-property struct, a
`to_index`/`from_index` pair over the struct's declared field order:
`to_index` accumulates `index += field.to_index() * multiplier;
multiplier *= variant_count()` and `from_index` repeatedly takes
`index % variant_count` and then divides.  We embed a property struct
abstractly as a list of fields, each field being the pair
(current variant index, variant count) in iteration order. -/

namespace MixedRadix

/-- One field of a generated block-property struct: the field's current
variant index paired with its property's `variant_count()`. -/
abbrev Field := Nat × Nat

/-- The generated arithmetic is over `u16`. -/
def U16 : Nat := 65536

/-- Loop body of the generated `fn to_index`:
`index += self.field.to_index() * multiplier; multiplier *= variant_count()`,
all over `u16` (hence the `% U16`). -/
def toIndexLoop : List Field → Nat → Nat → Nat
  | [], index, _ => index
  | (v, c) :: rest, index, multiplier =>
      toIndexLoop rest ((index + v * multiplier) % U16) ((multiplier * c) % U16)

/-- Generated `fn to_index` (accumulators start at `index = 0`,
`multiplier = 1`). -/
def toIndex (fields : List Field) : Nat := toIndexLoop fields 0 1

/-- The ideal (overflow-free) mixed-radix value; used to state lemmas. -/
def toIndexPure : List Field → Nat
  | [] => 0
  | (v, c) :: rest => v + c * toIndexPure rest

/-- Generated `fn from_index`: per field in the same order,
`value = index % variant_count; index /= variant_count`.  Returns the decoded
variant indices in field order. -/
def fromIndexLoop : List Nat → Nat → List Nat
  | [], _ => []
  | c :: rest, index => (index % c) :: fromIndexLoop rest (index / c)

/-- The variant counts of the fields, in order. -/
def cards (fields : List Field) : List Nat := fields.map Prod.snd

/-- The current variant indices of the fields, in order. -/
def vals (fields : List Field) : List Nat := fields.map Prod.fst

/-- Product of all variant counts: the number of states owned by a block
using this property struct. -/
def prodCards (fields : List Field) : Nat :=
  (cards fields).foldr (fun a b => a * b) 1

/-- An assignment is valid when every field's variant index is below its
property's variant count (the invariant of the generated enums). -/
def Valid (fields : List Field) : Prop := ∀ p ∈ fields, p.1 < p.2

instance : DecidablePred Valid := fun fields =>
  inferInstanceAs (Decidable (∀ p ∈ fields, p.1 < p.2))

/-- Generated `fn to_state_id`: `block.states[0].id + self.to_index()`
over `u16` (`first` is the block's first owned state id). -/
def to_state_id (fields : List Field) (first : Nat) : Nat :=
  (first + toIndex fields) % U16

/-- Generated `fn from_state_id`: succeeds exactly when
`block.states[0].id <= state_id <= block.states.last().id`, decoding
`state_id - first` by `from_index`; otherwise `None`. -/
def from_state_id (cs : List Nat) (first last state_id : Nat) :
    Option (List Nat) :=
  if first ≤ state_id ∧ state_id ≤ last then
    some (fromIndexLoop cs (state_id - first))
  else
    none

end MixedRadix

/-! ## Redstone-wire property struct (`RedstoneWireLikeProperties`)

The build step generates one enum per wire-connection property
(`NorthWireConnection`, `SouthWireConnection`, `EastWireConnection`,
`WestWireConnection`); the four are structurally identical, with variants
`Up`, `Side`, `None` in data order (indices 0, 1, 2).  We embed them as a
single type.  `Integer0To15` is the generated 16-variant power enum, whose
`to_index` is the numeric power value; we embed it as `Fin 16`. -/

inductive WireConnection where
  | Up
  | Side
  | None
deriving DecidableEq

/-- Generated `EnumVariants::to_index` for the wire-connection enums
(variants in data order `up`, `side`, `none`). -/
def WireConnection.to_index : WireConnection → Nat
  | .Up => 0
  | .Side => 1
  | .None => 2

/-- Generated `EnumVariants::from_index` for the wire-connection enums.
Out-of-range indices panic in the source; they are unreachable from
`from_index` of the struct because values are produced by `% 3`. -/
def WireConnection.from_index : Nat → WireConnection
  | 0 => .Up
  | 1 => .Side
  | _ => .None

/-- `impl WireConnection for {North,South,East,West}WireConnection`:
`is_connected` is true for everything except `None`. -/
def WireConnection.is_connected : WireConnection → Bool
  | .None => false
  | _ => true

/-- Generated power enum `Integer0To15`; `to_index` is `Fin.val`. -/
abbrev Integer0To15 := Fin 16

/-- The generated `RedstoneWireLikeProperties` struct: one power property
and one connection property per horizontal direction. -/
structure RedstoneWireLikeProperties where
  power : Integer0To15
  east : WireConnection
  north : WireConnection
  south : WireConnection
  west : WireConnection
deriving DecidableEq

namespace RedstoneWireLikeProperties

/-- Monomorphised generated `fn to_index` for `RedstoneWireLikeProperties`.
Modelled from the spec: the concrete field order and cardinalities come from
the generated block-data tables, which are not under src/; the generator
iterates the declared fields in reverse, giving iteration order
west, south, power, north, east with cardinalities 3, 3, 16, 3, 3.
The mixed-radix accumulation cannot overflow `u16` (maximum 1295). -/
def to_index (p : RedstoneWireLikeProperties) : Nat :=
  p.west.to_index
    + 3 * (p.south.to_index
      + 3 * (p.power.val
        + 16 * (p.north.to_index + 3 * p.east.to_index)))

/-- Monomorphised generated `fn from_index`: per field,
`value = index % variant_count; index /= variant_count`, in the same
iteration order as `to_index`. -/
def from_index (index : Nat) : RedstoneWireLikeProperties where
  power := ⟨index / 3 / 3 % 16, by omega⟩
  east := .from_index (index / 3 / 3 / 16 / 3 % 3)
  north := .from_index (index / 3 / 3 / 16 % 3)
  south := .from_index (index / 3 % 3)
  west := .from_index (index % 3)

/-- The wire's first owned state id.  Modelled from the spec: the concrete
value comes from the generated block-data tables (not under src/); any value
with `first + 1296 ≤ 65536` behaves identically. -/
def wireFirstStateId : Nat := 2978

/-- Number of wire states: `3 * 3 * 16 * 3 * 3`. -/
def wireStateCount : Nat := 1296

/-- Monomorphised generated `fn to_state_id`:
`block.states[0].id + self.to_index()` (no `u16` overflow:
`2978 + 1295 < 65536`). -/
def to_state_id (p : RedstoneWireLikeProperties) : Nat :=
  wireFirstStateId + p.to_index

/-- Monomorphised generated `fn from_state_id`: `Some` exactly on the wire's
owned range `[first, last]`, decoding the offset by `from_index`. -/
def from_state_id (state_id : Nat) : Option RedstoneWireLikeProperties :=
  if wireFirstStateId ≤ state_id ∧ state_id ≤ wireFirstStateId + (wireStateCount - 1) then
    some (from_index (state_id - wireFirstStateId))
  else
    none

/-- Generated `fn default`: decodes `block.default_state_id`.  Modelled from
the spec/data: the wire's default state is the all-disconnected,
power-0 state. -/
def default : RedstoneWireLikeProperties :=
  ⟨0, .None, .None, .None, .None⟩

/-- The wire call sites in `redstone_wire.rs` and `redstone_view.rs` apply
the decoder directly to ids inside the wire's owned range, where it is
infallible; we model the projection out of `Option` with a default that is
never reached on those ids. -/
def decode (state_id : Nat) : RedstoneWireLikeProperties :=
  (from_state_id state_id).getD default

end RedstoneWireLikeProperties

/-! ## World model

`BlockPos` and `BlockDirection` live in the `pumpkin-util`/`pumpkin-world`
crates, which are not under src/.  Modelled from the spec: six axis
directions with the usual voxel offsets; `all` iterates vertical directions
first (the only order-sensitive use, the power loops, short-circuits at 15
and is otherwise order-insensitive); `horizontal` lists the four horizontal
directions (each is handled independently at every use site). -/

structure BlockPos where
  x : Int
  y : Int
  z : Int
deriving DecidableEq

inductive BlockDirection where
  | Down
  | Up
  | North
  | South
  | West
  | East
deriving DecidableEq

def BlockDirection.to_offset : BlockDirection → Int × Int × Int
  | .Down => (0, -1, 0)
  | .Up => (0, 1, 0)
  | .North => (0, 0, -1)
  | .South => (0, 0, 1)
  | .West => (-1, 0, 0)
  | .East => (1, 0, 0)

def BlockPos.offset (p : BlockPos) (o : Int × Int × Int) : BlockPos :=
  ⟨p.x + o.1, p.y + o.2.1, p.z + o.2.2⟩

def BlockPos.up (p : BlockPos) : BlockPos := ⟨p.x, p.y + 1, p.z⟩

def BlockPos.down (p : BlockPos) : BlockPos := ⟨p.x, p.y - 1, p.z⟩

def BlockDirection.opposite : BlockDirection → BlockDirection
  | .Down => .Up
  | .Up => .Down
  | .North => .South
  | .South => .North
  | .West => .East
  | .East => .West

def BlockDirection.all : List BlockDirection :=
  [.Down, .Up, .North, .South, .West, .East]

def BlockDirection.horizontal : List BlockDirection :=
  [.North, .South, .West, .East]

inductive HorizontalFacing where
  | North
  | South
  | West
  | East
deriving DecidableEq

inductive Facing where
  | Down
  | Up
  | North
  | South
  | West
  | East
deriving DecidableEq

/-- Modelled from the spec: a horizontal facing can only match a horizontal
direction, so the conversion is empty on the vertical directions. -/
def BlockDirection.to_horizontal_facing : BlockDirection → Option HorizontalFacing
  | .North => some .North
  | .South => some .South
  | .West => some .West
  | .East => some .East
  | _ => none

def BlockDirection.to_facing : BlockDirection → Facing
  | .Down => .Down
  | .Up => .Up
  | .North => .North
  | .South => .South
  | .West => .West
  | .East => .East

/-- The block types this core distinguishes by identity
(`Block::REDSTONE_WIRE`, `Block::REDSTONE_BLOCK`, `Block::REPEATER`,
`Block::OBSERVER`, `Block::AIR`); `generic n` stands for any other entry of
the static block catalog. -/
inductive Block where
  | redstone_wire
  | redstone_block
  | repeater
  | observer
  | air
  | generic (n : Nat)
deriving DecidableEq

/-- `Block::AIR.default_state_id`.  Modelled from the data tables (not under
src/): air owns the single state id 0. -/
def Block.air_default_state_id : Nat := 0

/-- The slice of `BlockState` this core reads: the state id and the
solidity flag. -/
structure BlockState where
  id : Nat
  is_solid : Bool
deriving DecidableEq

/-- The `PumpkinBlock` behavior interface consumed by the power engine
(`get_pumpkin_block` lookups).  Behaviors are opaque functions of the
queried position, state and direction. -/
structure PumpkinBlockBehavior where
  emits_redstone_power : BlockState → Bool
  get_weak_redstone_power : BlockPos → BlockState → BlockDirection → Nat
  get_strong_redstone_power : BlockPos → BlockState → BlockDirection → Nat

/-- A fixed world snapshot together with the static catalog and behavior
registry.  `blockAt`/`stateAt` embed the world accessor
(`get_block`, `get_block_state`, `get_block_and_block_state`; total because
the core treats missing positions as fatal); `get_pumpkin_block` embeds the
behavior registry; `block_from_state_id`, `repeater_facing`,
`observer_facing` and `is_trapdoor` embed the generated static tables
(`Block::from_state_id`, the repeater/observer property decoders, the
`minecraft:trapdoors` tag), whose concrete data is not under src/. -/
structure World where
  blockAt : BlockPos → Block
  stateAt : BlockPos → BlockState
  get_pumpkin_block : Block → Option PumpkinBlockBehavior
  block_from_state_id : Nat → Block
  repeater_facing : Nat → HorizontalFacing
  observer_facing : Nat → Facing
  is_trapdoor : Block → Bool

/-! ## Power view queries (`redstone_view.rs`) -/

/-- `redstone_view::get_strong_redstone_power`: ask the behavior of the
block at `pos` for its strong power toward `direction`; 0 when the block
has no registered behavior. -/
def get_strong_redstone_power (w : World) (pos : BlockPos)
    (direction : BlockDirection) : Nat :=
  match w.get_pumpkin_block (w.blockAt pos) with
  | some pb => pb.get_strong_redstone_power pos (w.stateAt pos) direction
  | none => 0

/-- The loop of `get_received_strong_redstone_power`: running max over the
remaining directions, breaking as soon as the running max reaches 15.
Note the source queries `block_pos` itself (no neighbor offset). -/
def received_strong_loop (w : World) (pos : BlockPos) :
    List BlockDirection → Nat → Nat
  | [], power => power
  | d :: rest, power =>
      let power := max power (get_strong_redstone_power w pos d)
      if 15 ≤ power then power else received_strong_loop w pos rest power

/-- `redstone_view::get_received_strong_redstone_power`. -/
def get_received_strong_redstone_power (w : World) (pos : BlockPos) : Nat :=
  received_strong_loop w pos BlockDirection.all 0

/-- `redstone_view::get_emitted_redstone_power_with_gate`.  When
`only_from_gate` is set the gate filter is an unimplemented TODO in the
source and control falls through to the final `0`. -/
def get_emitted_redstone_power_with_gate (w : World) (pos : BlockPos)
    (direction : BlockDirection) (only_from_gate : Bool) : Nat :=
  let block := w.blockAt pos
  let state := w.stateAt pos
  if only_from_gate then
    0
  else if block = Block.redstone_block then
    15
  else if block = Block.redstone_wire then
    (RedstoneWireLikeProperties.decode state.id).power.val
  else
    match w.get_pumpkin_block block with
    | some pb =>
        if pb.emits_redstone_power state then
          get_strong_redstone_power w pos direction
        else 0
    | none => 0

/-- The weak-power delegation inside `get_emitted_redstone_power`. -/
def behavior_weak_power (w : World) (pos : BlockPos)
    (direction : BlockDirection) : Nat :=
  match w.get_pumpkin_block (w.blockAt pos) with
  | some pb => pb.get_weak_redstone_power pos (w.stateAt pos) direction
  | none => 0

/-- `redstone_view::get_emitted_redstone_power`: the block's weak power,
maxed with the strong power received at the same position when the state
is solid. -/
def get_emitted_redstone_power (w : World) (pos : BlockPos)
    (direction : BlockDirection) : Nat :=
  let state := w.stateAt pos
  let power := behavior_weak_power w pos direction
  if state.is_solid then
    max power (get_received_strong_redstone_power w pos)
  else
    power

/-- The loop of `get_received_redstone_power`: running max of the power
emitted at the offset neighbor in each direction, breaking at 15. -/
def received_loop (w : World) (pos : BlockPos) :
    List BlockDirection → Nat → Nat
  | [], power => power
  | d :: rest, power =>
      let power := max power (get_emitted_redstone_power w (pos.offset d.to_offset) d)
      if 15 ≤ power then power else received_loop w pos rest power

/-- `redstone_view::get_received_redstone_power`. -/
def get_received_redstone_power (w : World) (pos : BlockPos) : Nat :=
  received_loop w pos BlockDirection.all 0

/-! Spec-side formulations (for the refinement/divergence statements). -/

def listMax (l : List Nat) : Nat := l.foldr max 0

/-- What the spec states for strong power received: the max over all six
directions of the strong power emitted by the *neighbor* in that
direction. -/
def spec_received_strong (w : World) (pos : BlockPos) : Nat :=
  listMax (BlockDirection.all.map
    (fun d => get_strong_redstone_power w (pos.offset d.to_offset) d))

/-- The spec's received power: plain max over all six directions of the
power emitted at the offset neighbor toward this position. -/
def spec_received (w : World) (pos : BlockPos) : Nat :=
  listMax (BlockDirection.all.map
    (fun d => get_emitted_redstone_power w (pos.offset d.to_offset) d))

/-- The spec's emitted power for a solid state: weak power maxed with the
strong power received from the position's *neighbors*. -/
def spec_emitted (w : World) (pos : BlockPos) (direction : BlockDirection) : Nat :=
  let power := behavior_weak_power w pos direction
  if (w.stateAt pos).is_solid then
    max power (spec_received_strong w pos)
  else
    power

/-! ## Redstone wire block (`redstone_wire.rs`) -/

/-- The local `WireConnectionType` enum of `redstone_wire.rs`. -/
inductive WireConnectionType where
  | Up
  | Side
  | None
deriving DecidableEq

def WireConnectionType.is_connected : WireConnectionType → Bool
  | .None => false
  | _ => true

/-- The per-direction arm bodies of `WireConnectionType::set_connection`
all map the connection type to the corresponding generated enum variant. -/
def WireConnectionType.to_connection : WireConnectionType → WireConnection
  | .Up => .Up
  | .Side => .Side
  | .None => .None

/-- `WireConnection::as_wire_connection_type` (identical for the four
generated enums). -/
def WireConnection.as_wire_connection_type : WireConnection → WireConnectionType
  | .Up => .Up
  | .Side => .Side
  | .None => .None

/-- `WireConnectionType::set_connection`: writes the matching variant into
the field selected by `direction`; vertical directions are the `_ => {}`
arm and leave the struct unchanged. -/
def WireConnectionType.set_connection (t : WireConnectionType)
    (props : RedstoneWireLikeProperties) (direction : BlockDirection) :
    RedstoneWireLikeProperties :=
  match direction with
  | .North => { props with north := t.to_connection }
  | .South => { props with south := t.to_connection }
  | .East => { props with east := t.to_connection }
  | .West => { props with west := t.to_connection }
  | _ => props

/-- `RedstoneWireHelper::get_connection_type`: vertical directions are the
`_ => WireConnectionType::None` arm. -/
def RedstoneWireLikeProperties.get_connection_type
    (props : RedstoneWireLikeProperties) (direction : BlockDirection) :
    WireConnectionType :=
  match direction with
  | .North => props.north.as_wire_connection_type
  | .South => props.south.as_wire_connection_type
  | .East => props.east.as_wire_connection_type
  | .West => props.west.as_wire_connection_type
  | _ => .None

/-- `DOT_STATE`: power 0, all four connections `Side` (the X shape). -/
def DOT_STATE : RedstoneWireLikeProperties :=
  ⟨0, .Side, .Side, .Side, .Side⟩

/-- `RedstoneWireBlock::is_fully_connected`. -/
def is_fully_connected (props : RedstoneWireLikeProperties) : Bool :=
  props.north.is_connected && props.south.is_connected
    && props.east.is_connected && props.west.is_connected

/-- `RedstoneWireBlock::is_not_connected`. -/
def is_not_connected (props : RedstoneWireLikeProperties) : Bool :=
  !props.north.is_connected && !props.south.is_connected
    && !props.east.is_connected && !props.west.is_connected

/-- `RedstoneWireBlock::is_side_connected` (false for vertical
directions). -/
def is_side_connected (props : RedstoneWireLikeProperties)
    (direction : BlockDirection) : Bool :=
  match direction with
  | .North => props.north.is_connected
  | .South => props.south.is_connected
  | .East => props.east.is_connected
  | .West => props.west.is_connected
  | _ => false

/-- `RedstoneWireBlock::can_run_on_top`: unconditionally `true` in the
source (`TODO: Implement this`). -/
def can_run_on_top (_floor : BlockState) : Bool := true

/-- `RedstoneWireBlock::connects_to`: unconditionally true for wire; for a
repeater/observer, dependent on the queried direction against the
component's facing; otherwise delegated to the block behavior's
`emits_redstone_power`, counted only when a direction is supplied.
The block is derived from the state id via the static catalog
(`Block::from_state_id`). -/
def connects_to (w : World) (state : BlockState)
    (direction : Option BlockDirection) : Bool :=
  let block := w.block_from_state_id state.id
  if block = Block.redstone_wire then
    true
  else if block = Block.repeater then
    match direction with
    | some d =>
        decide (some (w.repeater_facing state.id) = d.to_horizontal_facing
          ∨ some (w.repeater_facing state.id) = d.opposite.to_horizontal_facing)
    | none => false
  else if block = Block.observer then
    match direction with
    | some d => decide (w.observer_facing state.id = d.to_facing)
    | none => false
  else
    match w.get_pumpkin_block block with
    | some pb => pb.emits_redstone_power state && direction.isSome
    | none => false

/-- `RedstoneWireBlock::get_render_connection_type`: classify the
connection toward `direction`; `not_solid` is whether the space above the
wire is non-solid. -/
def get_render_connection_type (w : World) (location : BlockPos)
    (direction : BlockDirection) (not_solid : Bool) : WireConnectionType :=
  let other_block_pos := location.offset direction.to_offset
  let other_block := w.blockAt other_block_pos
  let other_block_state := w.stateAt other_block_pos
  let up_case :=
    not_solid
      && (w.is_trapdoor other_block || can_run_on_top other_block_state)
      && connects_to w (w.stateAt other_block_pos.up) none
  if up_case then
    if other_block_state.is_solid then WireConnectionType.Up
    else WireConnectionType.Side
  else if !connects_to w other_block_state (some direction)
      && (other_block_state.is_solid
        || !connects_to w (w.stateAt other_block_pos.down) none) then
    WireConnectionType.None
  else
    WireConnectionType.Side

/-- `RedstoneWireBlock::get_default_wire_state`: resolve every direction
that is not already side-connected in `props`, reading the solidity of the
space above once. -/
def get_default_wire_state (w : World) (block_pos : BlockPos)
    (props : RedstoneWireLikeProperties) : RedstoneWireLikeProperties :=
  let not_solid := !(w.stateAt block_pos.up).is_solid
  BlockDirection.horizontal.foldl
    (fun p direction =>
      if is_side_connected p direction then p
      else
        (get_render_connection_type w block_pos direction not_solid).set_connection
          p direction)
    props

/-- `RedstoneWireBlock::get_placement_state`. -/
def get_placement_state (w : World) (block_pos : BlockPos)
    (old_props : RedstoneWireLikeProperties) : RedstoneWireLikeProperties :=
  let not_connected := is_not_connected old_props
  let props0 : RedstoneWireLikeProperties :=
    { RedstoneWireLikeProperties.default with power := old_props.power }
  let props := get_default_wire_state w block_pos props0
  if not_connected && is_not_connected props then
    props
  else
    let north_connected := props.north.is_connected
    let south_connected := props.south.is_connected
    let east_connected := props.east.is_connected
    let west_connected := props.west.is_connected
    let is_north_south_disconnected := !north_connected && !south_connected
    let is_east_west_disconnected := !east_connected && !west_connected
    let props :=
      if !west_connected && is_north_south_disconnected then
        { props with west := .Side }
      else props
    let props :=
      if !east_connected && is_north_south_disconnected then
        { props with east := .Side }
      else props
    let props :=
      if !north_connected && is_east_west_disconnected then
        { props with north := .Side }
      else props
    let props :=
      if !south_connected && is_east_west_disconnected then
        { props with south := .Side }
      else props
    props

/-- `RedstoneWireBlock::get_weak_redstone_power`.  The transient
`wire_gives_power` reentrancy flag (an `AtomicBool` on the block singleton)
is passed explicitly. -/
def wire_get_weak_redstone_power (w : World) (wire_gives_power : Bool)
    (block_pos : BlockPos) (state : BlockState)
    (direction : BlockDirection) : Nat :=
  if wire_gives_power ∧ direction ≠ BlockDirection.Down then
    let wire_props := RedstoneWireLikeProperties.decode state.id
    let power := wire_props.power.val
    if power = 0 then
      0
    else
      let placement_state := get_placement_state w block_pos wire_props
      if direction ≠ BlockDirection.Up
          ∧ !(placement_state.get_connection_type direction.opposite).is_connected then
        0
      else
        power
  else
    0

/-- `RedstoneWireBlock::get_strong_redstone_power`: walks through the weak
power when the `wire_gives_power` flag is set. -/
def wire_get_strong_redstone_power (w : World) (wire_gives_power : Bool)
    (block_pos : BlockPos) (state : BlockState)
    (direction : BlockDirection) : Nat :=
  if wire_gives_power then
    wire_get_weak_redstone_power w wire_gives_power block_pos state direction
  else
    0

/-- The side-update branch of `get_state_for_neighbor_update` (the `else`
arm for a horizontal `source_face`), factored out on decoded properties. -/
def side_update (w : World) (block_pos : BlockPos)
    (wire_props : RedstoneWireLikeProperties) (source_face : BlockDirection) :
    RedstoneWireLikeProperties :=
  let block_above := w.stateAt block_pos.up
  let wire_connection_type :=
    get_render_connection_type w block_pos source_face (!block_above.is_solid)
  if wire_connection_type.is_connected
        == (wire_props.get_connection_type source_face).is_connected
      && !is_fully_connected wire_props then
    wire_connection_type.set_connection wire_props source_face
  else
    let new_props := { DOT_STATE with power := wire_props.power }
    let new_props := wire_connection_type.set_connection new_props source_face
    get_placement_state w block_pos new_props

/-- `RedstoneWireBlock::get_state_for_neighbor_update`: three branches keyed
by the triggering direction; returns the new state id. -/
def get_state_for_neighbor_update (w : World) (block_pos : BlockPos)
    (state : BlockState) (source_face : BlockDirection)
    (source_block_pos : BlockPos) : Nat :=
  if source_face = BlockDirection.Down then
    if !can_run_on_top (w.stateAt source_block_pos) then
      Block.air_default_state_id
    else
      state.id
  else if source_face = BlockDirection.Up then
    (get_placement_state w block_pos
      (RedstoneWireLikeProperties.decode state.id)).to_state_id
  else
    (side_update w block_pos (RedstoneWireLikeProperties.decode state.id)
      source_face).to_state_id

/-! ## Characterisation definitions for placement-state derivation -/

/-- The render connection toward `d`, with the above-solidity read the way
every caller computes it. -/
def render_conn (w : World) (pos : BlockPos) (d : BlockDirection) :
    WireConnectionType :=
  get_render_connection_type w pos d (!(w.stateAt pos.up).is_solid)

/-- The per-direction resolution of a wire with no prior connections:
each horizontal direction carries its render connection. -/
def resolved (w : World) (pos : BlockPos) (pw : Integer0To15) :
    RedstoneWireLikeProperties where
  power := pw
  east := (render_conn w pos .East).to_connection
  north := (render_conn w pos .North).to_connection
  south := (render_conn w pos .South).to_connection
  west := (render_conn w pos .West).to_connection

/-- The spec's no-isolated-end-cap rule: with no north/south connection, an
unconnected east or west side is forced to `Side`, and symmetrically. -/
def endcap_spec (props : RedstoneWireLikeProperties) :
    RedstoneWireLikeProperties :=
  let ns_disc := !props.north.is_connected && !props.south.is_connected
  let ew_disc := !props.east.is_connected && !props.west.is_connected
  { props with
    west := if !props.west.is_connected && ns_disc then .Side else props.west
    east := if !props.east.is_connected && ns_disc then .Side else props.east
    north := if !props.north.is_connected && ew_disc then .Side else props.north
    south := if !props.south.is_connected && ew_disc then .Side else props.south }

/-- The four horizontal directions (the side branch is only entered for
these). -/
def Horiz (d : BlockDirection) : Prop :=
  d = .North ∨ d = .South ∨ d = .West ∨ d = .East

/-- The branch condition of the side-update arm. -/
def side_cond (w : World) (pos : BlockPos)
    (p : RedstoneWireLikeProperties) (d : BlockDirection) : Bool :=
  ((render_conn w pos d).is_connected
      == (p.get_connection_type d).is_connected)
    && !is_fully_connected p

/-- The amended wire weak-power contract: 0 unless the `wire_gives_power`
flag is set and the direction is not down; then the stored power, unless
that power is nonzero, the direction is not up, and the recomputed placement
state's connection in the *opposite* of the queried direction is `None`,
in which case 0. -/
def spec_wire_weak (w : World) (flag : Bool) (pos : BlockPos)
    (state : BlockState) (d : BlockDirection) : Nat :=
  let power := (RedstoneWireLikeProperties.decode state.id).power.val
  if ¬flag ∨ d = BlockDirection.Down then 0
  else if power = 0 then 0
  else if d = BlockDirection.Up then power
  else if ((get_placement_state w pos
      (RedstoneWireLikeProperties.decode state.id)).get_connection_type
        d.opposite).is_connected then power
  else 0

/-! ## Concrete worlds used for evaluations -/

/-- A behavior that emits strong power 15 in every direction (the
redstone-block source behavior). -/
def strongSourceBehavior : PumpkinBlockBehavior where
  emits_redstone_power := fun _ => true
  get_weak_redstone_power := fun _ _ _ => 0
  get_strong_redstone_power := fun _ _ _ => 15

/-- World for the strong-power divergence: a strong source directly above
the origin, inert blocks everywhere else. -/
def W3 : World where
  blockAt := fun p => if p = ⟨0, 1, 0⟩ then .redstone_block else .generic 0
  stateAt := fun _ => ⟨0, false⟩
  get_pumpkin_block := fun b =>
    if b = .redstone_block then some strongSourceBehavior else none
  block_from_state_id := fun _ => .generic 0
  repeater_facing := fun _ => .North
  observer_facing := fun _ => .North
  is_trapdoor := fun _ => false

/-- World for the emitted-power divergence: like `W3` but the origin's
state is solid, so emitted power takes the solid-relay branch. -/
def W4 : World where
  blockAt := fun p => if p = ⟨0, 1, 0⟩ then .redstone_block else .generic 0
  stateAt := fun p => if p = ⟨0, 1, 0⟩ then ⟨1, false⟩ else ⟨0, true⟩
  get_pumpkin_block := fun b =>
    if b = .redstone_block then some strongSourceBehavior else none
  block_from_state_id := fun _ => .generic 0
  repeater_facing := fun _ => .North
  observer_facing := fun _ => .North
  is_trapdoor := fun _ => false

/-- World with a redstone block everywhere (for the gate query). -/
def W5 : World where
  blockAt := fun _ => .redstone_block
  stateAt := fun _ => ⟨0, false⟩
  get_pumpkin_block := fun _ => none
  block_from_state_id := fun _ => .generic 0
  repeater_facing := fun _ => .North
  observer_facing := fun _ => .North
  is_trapdoor := fun _ => false

/-- A wire state with stored power 1 and no stored connections. -/
def wirePowerOne : RedstoneWireLikeProperties :=
  ⟨1, .None, .None, .None, .None⟩

/-- World for the wire weak-power counterexample: a wire with stored power
1 at the origin, a second wire directly north, nothing else connectable,
nothing solid. -/
def W6 : World where
  blockAt := fun p =>
    if p = ⟨0, 0, -1⟩ then .redstone_wire
    else if p = ⟨0, 0, 0⟩ then .redstone_wire
    else .generic 0
  stateAt := fun p =>
    if p = ⟨0, 0, -1⟩ then ⟨wirePowerOne.to_state_id, false⟩
    else if p = ⟨0, 0, 0⟩ then ⟨wirePowerOne.to_state_id, false⟩
    else ⟨0, false⟩
  get_pumpkin_block := fun _ => none
  block_from_state_id := fun sid =>
    if RedstoneWireLikeProperties.wireFirstStateId ≤ sid
        ∧ sid ≤ RedstoneWireLikeProperties.wireFirstStateId
            + (RedstoneWireLikeProperties.wireStateCount - 1) then
      .redstone_wire
    else
      .generic 0
  repeater_facing := fun _ => .North
  observer_facing := fun _ => .North
  is_trapdoor := fun _ => false

/-- World whose whole catalog maps to wire (for the connects-to witness). -/
def W7 : World where
  blockAt := fun _ => .redstone_wire
  stateAt := fun _ => ⟨0, false⟩
  get_pumpkin_block := fun _ => none
  block_from_state_id := fun _ => .redstone_wire
  repeater_facing := fun _ => .North
  observer_facing := fun _ => .North
  is_trapdoor := fun _ => false

/-! ## Theorems: mixed-radix codec -/

namespace MixedRadix

theorem prodCards_cons (v c : Nat) (rest : List Field) :
    prodCards ((v, c) :: rest) = c * prodCards rest := by
  simp [prodCards, cards]

theorem toIndexPure_lt_prodCards (fields : List Field) (hv : Valid fields) :
    toIndexPure fields < prodCards fields := by
  induction fields with
  | nil => simp [toIndexPure, prodCards, cards]
  | cons f rest ih =>
      obtain ⟨v, c⟩ := f
      have hvc : v < c := hv (v, c) (List.mem_cons_self _ _)
      have hrest : Valid rest := fun p hp => hv p (List.mem_cons_of_mem _ hp)
      have ht := ih hrest
      rw [prodCards_cons]
      simp only [toIndexPure]
      calc v + c * toIndexPure rest < c + c * toIndexPure rest := by omega
        _ = c * (1 + toIndexPure rest) := by ring
        _ ≤ c * prodCards rest := Nat.mul_le_mul_left c (by omega)

theorem toIndexLoop_eq (fields : List Field) (index multiplier : Nat)
    (hi : index < U16) :
    toIndexLoop fields index multiplier
      = (index + multiplier * toIndexPure fields) % U16 := by
  induction fields generalizing index multiplier with
  | nil =>
      simp only [toIndexLoop, toIndexPure, Nat.mul_zero, Nat.add_zero]
      exact (Nat.mod_eq_of_lt hi).symm
  | cons f rest ih =>
      obtain ⟨v, c⟩ := f
      have hU : 0 < U16 := by decide
      simp only [toIndexLoop, toIndexPure]
      rw [ih _ _ (Nat.mod_lt _ hU)]
      have h1 : (index + v * multiplier) % U16 ≡ index + v * multiplier [MOD U16] :=
        Nat.mod_modEq _ _
      have h2 : (multiplier * c) % U16 ≡ multiplier * c [MOD U16] :=
        Nat.mod_modEq _ _
      have h3 : (index + v * multiplier) % U16 + (multiplier * c) % U16 * toIndexPure rest
          ≡ index + v * multiplier + multiplier * c * toIndexPure rest [MOD U16] :=
        h1.add (h2.mul_right _)
      have h4 : index + v * multiplier + multiplier * c * toIndexPure rest
          = index + multiplier * (v + c * toIndexPure rest) := by ring
      rw [h4] at h3
      exact h3

theorem toIndex_eq_pure (fields : List Field) (hv : Valid fields)
    (hfit : prodCards fields ≤ U16) :
    toIndex fields = toIndexPure fields := by
  have h := toIndexLoop_eq fields 0 1 (by decide)
  have hlt := toIndexPure_lt_prodCards fields hv
  rw [toIndex, h, Nat.one_mul, Nat.zero_add]
  exact Nat.mod_eq_of_lt (by omega)

theorem fromIndexLoop_toIndexPure (fields : List Field) (hv : Valid fields) :
    fromIndexLoop (cards fields) (toIndexPure fields) = vals fields := by
  induction fields with
  | nil => simp [fromIndexLoop, cards, vals, toIndexPure]
  | cons f rest ih =>
      obtain ⟨v, c⟩ := f
      have hvc : v < c := hv (v, c) (List.mem_cons_self _ _)
      have hrest : Valid rest := fun p hp => hv p (List.mem_cons_of_mem _ hp)
      have hc : 0 < c := by omega
      simp only [cards, vals, List.map_cons, toIndexPure, fromIndexLoop]
      have h1 : (v + c * toIndexPure rest) % c = v := by
        rw [Nat.add_mul_mod_self_left]
        exact Nat.mod_eq_of_lt hvc
      have h2 : (v + c * toIndexPure rest) / c = toIndexPure rest := by
        rw [Nat.add_mul_div_left _ _ hc, Nat.div_eq_of_lt hvc, Nat.zero_add]
      rw [h1, h2]
      have := ih hrest
      simp only [cards, vals] at this
      rw [this]

end MixedRadix

/-! ## Theorems: wire codec -/

namespace RedstoneWireLikeProperties

theorem connection_to_index_lt (c : WireConnection) : c.to_index < 3 := by
  cases c <;> decide

theorem connection_from_to (c : WireConnection) :
    WireConnection.from_index c.to_index = c := by
  cases c <;> rfl

theorem decode_components (a b pw d e : Nat)
    (ha : a < 3) (hb : b < 3) (hpw : pw < 16) (hd : d < 3) (he : e < 3) :
    (a + 3 * (b + 3 * (pw + 16 * (d + 3 * e)))) % 3 = a
    ∧ (a + 3 * (b + 3 * (pw + 16 * (d + 3 * e)))) / 3 % 3 = b
    ∧ (a + 3 * (b + 3 * (pw + 16 * (d + 3 * e)))) / 3 / 3 % 16 = pw
    ∧ (a + 3 * (b + 3 * (pw + 16 * (d + 3 * e)))) / 3 / 3 / 16 % 3 = d
    ∧ (a + 3 * (b + 3 * (pw + 16 * (d + 3 * e)))) / 3 / 3 / 16 / 3 % 3 = e := by
  omega

theorem from_index_to_index (p : RedstoneWireLikeProperties) :
    from_index p.to_index = p := by
  obtain ⟨pw, e, n, s, w⟩ := p
  obtain ⟨h1, h2, h3, h4, h5⟩ :=
    decode_components w.to_index s.to_index pw.val n.to_index e.to_index
      (connection_to_index_lt w) (connection_to_index_lt s) pw.isLt
      (connection_to_index_lt n) (connection_to_index_lt e)
  simp only [from_index, to_index] at *
  simp only [mk.injEq]
  refine ⟨?_, ?_, ?_, ?_, ?_⟩
  · rw [Fin.ext_iff]
    exact h3
  · rw [h5, connection_from_to]
  · rw [h4, connection_from_to]
  · rw [h2, connection_from_to]
  · rw [h1, connection_from_to]

theorem to_index_lt (p : RedstoneWireLikeProperties) :
    p.to_index < wireStateCount := by
  obtain ⟨pw, e, n, s, w⟩ := p
  have he := connection_to_index_lt e
  have hn := connection_to_index_lt n
  have hs := connection_to_index_lt s
  have hw := connection_to_index_lt w
  have hpw := pw.isLt
  simp only [to_index, wireStateCount]
  omega

theorem decode_to_state_id (p : RedstoneWireLikeProperties) :
    decode p.to_state_id = p := by
  have h := to_index_lt p
  simp only [wireStateCount] at h
  simp only [decode, from_state_id, to_state_id, wireStateCount]
  rw [if_pos (by omega), Option.getD_some, Nat.add_sub_cancel_left]
  exact from_index_to_index p

end RedstoneWireLikeProperties

/-! ## Theorems: placement-state characterisation -/

theorem get_default_wire_state_none (w : World) (pos : BlockPos)
    (pw : Integer0To15) :
    get_default_wire_state w pos ⟨pw, .None, .None, .None, .None⟩
      = resolved w pos pw := rfl

theorem get_placement_state_eq (w : World) (pos : BlockPos)
    (old_props : RedstoneWireLikeProperties) :
    get_placement_state w pos old_props
      = if is_not_connected old_props
            && is_not_connected (resolved w pos old_props.power) then
          resolved w pos old_props.power
        else
          endcap_spec (resolved w pos old_props.power) := by
  have hbase :
      ({ RedstoneWireLikeProperties.default with power := old_props.power }
        : RedstoneWireLikeProperties)
      = ⟨old_props.power, .None, .None, .None, .None⟩ := rfl
  simp only [get_placement_state, hbase, get_default_wire_state_none]
  cases hN : (resolved w pos old_props.power).north.is_connected
    <;> cases hS : (resolved w pos old_props.power).south.is_connected
    <;> cases hE : (resolved w pos old_props.power).east.is_connected
    <;> cases hW : (resolved w pos old_props.power).west.is_connected
    <;> simp [endcap_spec, hN, hS, hE, hW]

theorem endcap_spec_power (props : RedstoneWireLikeProperties) :
    (endcap_spec props).power = props.power := rfl

theorem resolved_power (w : World) (pos : BlockPos) (pw : Integer0To15) :
    (resolved w pos pw).power = pw := rfl

theorem is_not_connected_endcap (props : RedstoneWireLikeProperties) :
    is_not_connected (endcap_spec props) = false := by
  obtain ⟨pw, e, n, s, wc⟩ := props
  cases e <;> cases n <;> cases s <;> cases wc <;> rfl

theorem get_placement_state_power (w : World) (pos : BlockPos)
    (props : RedstoneWireLikeProperties) :
    (get_placement_state w pos props).power = props.power := by
  rw [get_placement_state_eq]
  split <;> rfl

theorem get_placement_state_idem (w : World) (pos : BlockPos)
    (props : RedstoneWireLikeProperties) :
    get_placement_state w pos (get_placement_state w pos props)
      = get_placement_state w pos props := by
  rw [get_placement_state_eq w pos props]
  cases hc : is_not_connected props
      && is_not_connected (resolved w pos props.power) with
  | true =>
      rw [if_pos rfl]
      simp only [Bool.and_eq_true] at hc
      obtain ⟨-, hr⟩ := hc
      rw [get_placement_state_eq, resolved_power, hr, Bool.and_self, if_pos rfl]
  | false =>
      rw [if_neg (by simp)]
      rw [get_placement_state_eq, endcap_spec_power, resolved_power,
        is_not_connected_endcap, Bool.false_and, if_neg (by simp)]

/-! ## Theorems: side-update idempotence -/

theorem side_update_eq (w : World) (pos : BlockPos)
    (p : RedstoneWireLikeProperties) (d : BlockDirection) :
    side_update w pos p d
      = if side_cond w pos p d then
          (render_conn w pos d).set_connection p d
        else
          get_placement_state w pos
            ((render_conn w pos d).set_connection
              { DOT_STATE with power := p.power } d) := rfl

theorem to_connection_is_connected (t : WireConnectionType) :
    (t.to_connection).is_connected = t.is_connected := by
  cases t <;> rfl

theorem as_wct_is_connected (c : WireConnection) :
    (c.as_wire_connection_type).is_connected = c.is_connected := by
  cases c <;> rfl

theorem as_wct_to_connection (t : WireConnectionType) :
    (t.to_connection).as_wire_connection_type = t := by
  cases t <;> rfl

theorem set_connection_power (t : WireConnectionType)
    (p : RedstoneWireLikeProperties) (d : BlockDirection) :
    (t.set_connection p d).power = p.power := by
  cases d <;> rfl

theorem power_set_dot (t : WireConnectionType) (pw : Integer0To15)
    (d : BlockDirection) :
    (t.set_connection { DOT_STATE with power := pw } d).power = pw := by
  cases d <;> rfl

theorem nc_set_dot (t : WireConnectionType) (pw : Integer0To15)
    (d : BlockDirection) :
    is_not_connected (t.set_connection { DOT_STATE with power := pw } d)
      = false := by
  cases d <;> cases t <;> rfl

theorem get_set_connection (t : WireConnectionType)
    (p : RedstoneWireLikeProperties) (d : BlockDirection) (hd : Horiz d) :
    (t.set_connection p d).get_connection_type d = t := by
  rcases hd with rfl | rfl | rfl | rfl <;> cases t <;> rfl

theorem set_set_connection (t : WireConnectionType)
    (p : RedstoneWireLikeProperties) (d : BlockDirection) :
    t.set_connection (t.set_connection p d) d = t.set_connection p d := by
  cases d <;> rfl

theorem full_set_connection (t : WireConnectionType)
    (p : RedstoneWireLikeProperties) (d : BlockDirection) (hd : Horiz d)
    (h : t.is_connected = ((p.get_connection_type d)).is_connected) :
    is_fully_connected (t.set_connection p d) = is_fully_connected p := by
  rcases hd with rfl | rfl | rfl | rfl <;>
    simp only [RedstoneWireLikeProperties.get_connection_type,
      as_wct_is_connected] at h <;>
    simp [is_fully_connected, WireConnectionType.set_connection,
      to_connection_is_connected, h]

theorem side_update_idem (w : World) (pos : BlockPos)
    (p : RedstoneWireLikeProperties) (d : BlockDirection) (hd : Horiz d) :
    side_update w pos (side_update w pos p d) d = side_update w pos p d := by
  rcases Bool.eq_false_or_eq_true (side_cond w pos p d) with hc | hc
  · -- the first invocation only adjusts the affected direction
    rw [side_update_eq w pos p d, hc, if_pos rfl]
    have hparts := hc
    simp only [side_cond, Bool.and_eq_true, beq_iff_eq,
      Bool.not_eq_true'] at hparts
    obtain ⟨h1, h2⟩ := hparts
    rw [side_update_eq]
    have hcond : side_cond w pos
        ((render_conn w pos d).set_connection p d) d = true := by
      simp only [side_cond, get_set_connection _ _ _ hd,
        full_set_connection _ _ _ hd h1, h2, beq_self_eq_true,
        Bool.not_false, Bool.and_self]
    rw [hcond, if_pos rfl, set_set_connection]
  · -- the first invocation reseeds from the dot shape and re-derives
    rw [side_update_eq w pos p d, hc, if_neg (by simp)]
    have hq : get_placement_state w pos
        ((render_conn w pos d).set_connection
          { DOT_STATE with power := p.power } d)
        = endcap_spec (resolved w pos p.power) := by
      rw [get_placement_state_eq, power_set_dot, nc_set_dot, Bool.false_and,
        if_neg (by simp)]
    rw [hq, side_update_eq]
    rcases Bool.eq_false_or_eq_true
        (side_cond w pos (endcap_spec (resolved w pos p.power)) d)
      with hc2 | hc2
    · rw [hc2, if_pos rfl]
      revert hc2
      simp only [side_cond, endcap_spec, resolved]
      rcases hd with rfl | rfl | rfl | rfl <;>
        cases render_conn w pos .East <;>
        cases render_conn w pos .North <;>
        cases render_conn w pos .South <;>
        cases render_conn w pos .West <;>
        intro hc2 <;>
        first
          | rfl
          | simp_all [WireConnectionType.set_connection,
              WireConnectionType.to_connection, WireConnectionType.is_connected,
              WireConnection.is_connected,
              RedstoneWireLikeProperties.get_connection_type,
              WireConnection.as_wire_connection_type, is_fully_connected]
    · rw [hc2, if_neg (by simp)]
      have hpw : (endcap_spec (resolved w pos p.power)).power = p.power := rfl
      rw [hpw, hq]

theorem side_update_power (w : World) (pos : BlockPos)
    (p : RedstoneWireLikeProperties) (d : BlockDirection) :
    (side_update w pos p d).power = p.power := by
  rw [side_update_eq]
  split
  · exact set_connection_power _ _ _
  · rw [get_placement_state_power, power_set_dot]

/-! ## Claim theorems -/

/-- **C1.** For every generated block-property struct, decoding the index
produced by encoding recovers the original assignment:
`from_index(to_index(a)) == a` for every valid assignment of the property
fields, where `to_index` is the mixed-radix sum over the declared field
order and `from_index` repeatedly takes the index modulo each field's
variant count then divides.  (The fit hypothesis is the catalog invariant
that a struct's state count fits `u16`.) -/
theorem c1_property_roundtrip (fields : List MixedRadix.Field)
    (hv : MixedRadix.Valid fields)
    (hfit : MixedRadix.prodCards fields ≤ MixedRadix.U16) :
    MixedRadix.fromIndexLoop (MixedRadix.cards fields)
        (MixedRadix.toIndex fields)
      = MixedRadix.vals fields := by
  rw [MixedRadix.toIndex_eq_pure fields hv hfit]
  exact MixedRadix.fromIndexLoop_toIndexPure fields hv

/-- Witness for C1 at the redstone wire's field layout with the assignment
(2, 1, 7, 0, 2). -/
theorem c1_property_roundtrip_witness :
    MixedRadix.fromIndexLoop
        (MixedRadix.cards [(2, 3), (1, 3), (7, 16), (0, 3), (2, 3)])
        (MixedRadix.toIndex [(2, 3), (1, 3), (7, 16), (0, 3), (2, 3)])
      = MixedRadix.vals [(2, 3), (1, 3), (7, 16), (0, 3), (2, 3)] :=
  c1_property_roundtrip [(2, 3), (1, 3), (7, 16), (0, 3), (2, 3)]
    (by decide) (by decide)

/-- **C2.** For every block type (first/last owned state id consistent with
the struct's state count) and every valid property assignment,
`from_state_id(to_state_id(a), block) == Some(a)`; and `from_state_id`
returns `None` exactly when the state id lies outside the owned range
`[first, last]`. -/
theorem c2_state_id_roundtrip (fields : List MixedRadix.Field)
    (first last : Nat) (hv : MixedRadix.Valid fields)
    (hlast : last + 1 = first + MixedRadix.prodCards fields)
    (hfit : first + MixedRadix.prodCards fields ≤ MixedRadix.U16) :
    MixedRadix.from_state_id (MixedRadix.cards fields) first last
        (MixedRadix.to_state_id fields first)
      = some (MixedRadix.vals fields)
    ∧ ∀ sid,
        (MixedRadix.from_state_id (MixedRadix.cards fields) first last sid
            = none
          ↔ (sid < first ∨ last < sid)) := by
  have hlt := MixedRadix.toIndexPure_lt_prodCards fields hv
  have hpure := MixedRadix.toIndex_eq_pure fields hv (by omega)
  constructor
  · have hts : MixedRadix.to_state_id fields first
        = first + MixedRadix.toIndexPure fields := by
      rw [MixedRadix.to_state_id, hpure]
      exact Nat.mod_eq_of_lt (by omega)
    rw [hts, MixedRadix.from_state_id, if_pos (by omega),
      Nat.add_sub_cancel_left,
      MixedRadix.fromIndexLoop_toIndexPure fields hv]
  · intro sid
    rw [MixedRadix.from_state_id]
    by_cases h : first ≤ sid ∧ sid ≤ last
    · rw [if_pos h]
      simp only [reduceCtorEq, false_iff]
      omega
    · rw [if_neg h]
      simp only [true_iff]
      omega

/-- Witness for C2 at a two-field struct owning state ids 10..15, and the
out-of-range state id 99. -/
theorem c2_state_id_roundtrip_witness :
    MixedRadix.from_state_id (MixedRadix.cards [(1, 2), (0, 3)]) 10 15
        (MixedRadix.to_state_id [(1, 2), (0, 3)] 10)
      = some (MixedRadix.vals [(1, 2), (0, 3)])
    ∧ (MixedRadix.from_state_id (MixedRadix.cards [(1, 2), (0, 3)]) 10 15 99
          = none
        ↔ (99 < 10 ∨ 15 < 99)) := by
  have h := c2_state_id_roundtrip [(1, 2), (0, 3)] 10 15
    (by decide) (by decide) (by decide)
  exact ⟨h.1, h.2 99⟩

/-- **C3** (divergence evaluation).  In `W3` a strong source sits directly
above the origin and emits strong power 15, while the origin's own block
emits none.  `get_received_strong_redstone_power` returns 0 because the
source queries the origin position itself in all six directions (no
neighbor offset), whereas the claim's value — the max over the six
*neighbors'* emitted strong power — is 15. -/
theorem c3_received_strong_divergence :
    get_received_strong_redstone_power W3 ⟨0, 0, 0⟩ = 0
    ∧ spec_received_strong W3 ⟨0, 0, 0⟩ = 15 := by
  constructor <;> rfl

/-- **C4** (divergence evaluation).  In `W4` the origin is solid with no
weak power, and the block above emits strong power 15.
`get_emitted_redstone_power` returns 0 because the solid-relay branch calls
the received-strong query, which reads the origin itself; the claim's value
— weak power maxed with the strong power received from the *neighbors* —
is 15. -/
theorem c4_emitted_power_divergence :
    get_emitted_redstone_power W4 ⟨0, 0, 0⟩ BlockDirection.East = 0
    ∧ spec_emitted W4 ⟨0, 0, 0⟩ BlockDirection.East = 15 := by
  constructor <;> rfl

/-- **C5** (counterexample).  With the `only_from_gate` flag set, the gated
query returns 0 even when the block at the position is a redstone block, so
the claim as stated (quantified over every call) fails. -/
theorem c5_gate_counterexample :
    W5.blockAt ⟨0, 0, 0⟩ = Block.redstone_block
    ∧ get_emitted_redstone_power_with_gate W5 ⟨0, 0, 0⟩ BlockDirection.Up true
        ≠ 15 := by
  exact ⟨rfl, by decide⟩

/-- **C5** (amended).  When the gate-only flag is unset, the gated
emitted-power query returns exactly 15 for a redstone block and exactly the
wire's stored encoded power value (no decay or recomputation) for redstone
wire; when the gate-only flag is set it returns 0 for every block (the gate
filter is an unimplemented TODO). -/
theorem c5_gate_amended (w : World) (pos : BlockPos) (d : BlockDirection) :
    (w.blockAt pos = Block.redstone_block →
      get_emitted_redstone_power_with_gate w pos d false = 15)
    ∧ (w.blockAt pos = Block.redstone_wire →
      get_emitted_redstone_power_with_gate w pos d false
        = (RedstoneWireLikeProperties.decode (w.stateAt pos).id).power.val)
    ∧ get_emitted_redstone_power_with_gate w pos d true = 0 := by
  refine ⟨fun h => ?_, fun h => ?_, ?_⟩
  · simp [get_emitted_redstone_power_with_gate, h]
  · simp [get_emitted_redstone_power_with_gate, h]
  · simp [get_emitted_redstone_power_with_gate]

/-- Witness for the amended C5: the redstone block in `W5` emits 15 through
the non-gated query. -/
theorem c5_gate_amended_witness :
    get_emitted_redstone_power_with_gate W5 ⟨0, 0, 0⟩ BlockDirection.Up false
      = 15 :=
  (c5_gate_amended W5 ⟨0, 0, 0⟩ BlockDirection.Up).1 rfl

/-- **C6** (counterexample).  In `W6` the wire at the origin stores power 1
and the `wire_gives_power` flag is set, yet querying the weak power toward
East returns 0 instead of the stored power, because the recomputed
placement state's connection in the opposite (west) direction is `None`:
the connectivity requirement applies to the weak-power query itself, not
only to strong power. -/
theorem c6_wire_weak_counterexample :
    wire_get_weak_redstone_power W6 true ⟨0, 0, 0⟩
        ⟨wirePowerOne.to_state_id, false⟩ BlockDirection.East = 0
    ∧ (RedstoneWireLikeProperties.decode wirePowerOne.to_state_id).power.val
        = 1 := by
  constructor <;> rfl

/-- **C6** (amended).  The wire's weak power is 0 whenever the
`wire_gives_power` flag is unset or the direction is `Down`; otherwise it
returns the stored power unless that power is nonzero, the direction is not
`Up`, and the recomputed placement state's connection tier in the
*opposite* of the queried direction is `None`, in which case it returns 0.
Strong power equals the weak power when the flag is set and 0 otherwise
(so the same connectivity requirement applies to it, not additionally). -/
theorem c6_wire_power_amended (w : World) (flag : Bool) (pos : BlockPos)
    (state : BlockState) (d : BlockDirection) :
    wire_get_weak_redstone_power w flag pos state d
      = spec_wire_weak w flag pos state d
    ∧ wire_get_strong_redstone_power w flag pos state d
      = (if flag then wire_get_weak_redstone_power w flag pos state d
         else 0) := by
  refine ⟨?_, rfl⟩
  by_cases hf1 : flag = true
  · by_cases hf2 : d = BlockDirection.Down
    · simp [wire_get_weak_redstone_power, spec_wire_weak, hf1, hf2]
    · by_cases hp : (RedstoneWireLikeProperties.decode state.id).power.val = 0
      · simp [wire_get_weak_redstone_power, spec_wire_weak, hf1, hf2, hp]
      · by_cases hu : d = BlockDirection.Up
        · simp [wire_get_weak_redstone_power, spec_wire_weak, hf1, hf2,
            hp, hu]
        · by_cases hcn : ((get_placement_state w pos
              (RedstoneWireLikeProperties.decode state.id)).get_connection_type
                d.opposite).is_connected = true
          · simp [wire_get_weak_redstone_power, spec_wire_weak, hf1, hf2,
              hp, hu, hcn]
          · simp [wire_get_weak_redstone_power, spec_wire_weak, hf1, hf2,
              hp, hu, hcn]
  · simp [wire_get_weak_redstone_power, spec_wire_weak, hf1]

/-- **C7.** `connects_to` is unconditionally true for redstone wire; for a
repeater or an observer it is true only when a direction is supplied and
that direction matches or opposes the component's facing; and for any other
block it equals the block behavior's `emits_redstone_power` conjoined with
a direction being supplied (false when no behavior is registered). -/
theorem c7_connects_to (w : World) (state : BlockState)
    (direction : Option BlockDirection) :
    (w.block_from_state_id state.id = Block.redstone_wire →
      connects_to w state direction = true)
    ∧ (w.block_from_state_id state.id = Block.repeater →
        connects_to w state direction = true →
        ∃ d, direction = some d
          ∧ (some (w.repeater_facing state.id) = d.to_horizontal_facing
            ∨ some (w.repeater_facing state.id)
                = d.opposite.to_horizontal_facing))
    ∧ (w.block_from_state_id state.id = Block.observer →
        connects_to w state direction = true →
        ∃ d, direction = some d
          ∧ (w.observer_facing state.id = d.to_facing
            ∨ w.observer_facing state.id = d.opposite.to_facing))
    ∧ (w.block_from_state_id state.id ≠ Block.redstone_wire →
        w.block_from_state_id state.id ≠ Block.repeater →
        w.block_from_state_id state.id ≠ Block.observer →
        connects_to w state direction
          = ((match w.get_pumpkin_block (w.block_from_state_id state.id) with
              | some pb => pb.emits_redstone_power state
              | none => false)
            && direction.isSome)) := by
  refine ⟨fun h => ?_, fun h hc => ?_, fun h hc => ?_, fun h1 h2 h3 => ?_⟩
  · simp [connects_to, h]
  · unfold connects_to at hc
    simp only [h, reduceCtorEq, if_false, if_true, if_pos rfl] at hc
    cases direction with
    | none => exact absurd hc (by simp)
    | some d => exact ⟨d, rfl, of_decide_eq_true hc⟩
  · unfold connects_to at hc
    simp only [h, reduceCtorEq, if_false, if_true, if_pos rfl] at hc
    cases direction with
    | none => exact absurd hc (by simp)
    | some d => exact ⟨d, rfl, Or.inl (of_decide_eq_true hc)⟩
  · unfold connects_to
    simp only [if_neg h1, if_neg h2, if_neg h3]
    cases w.get_pumpkin_block (w.block_from_state_id state.id) <;> simp

/-- Witness for C7: in `W7` the whole catalog maps to wire, so the test
succeeds even with no direction supplied. -/
theorem c7_connects_to_witness : connects_to W7 ⟨0, false⟩ none = true :=
  (c7_connects_to W7 ⟨0, false⟩ none).1 rfl

/-- **C8.** `get_placement_state` returns the resolved props early (all
directions freshly resolved, power preserved) exactly when the input had no
connections and the resolution also yields none; otherwise it applies the
no-isolated-end-cap rule: with both north and south unconnected after
resolution, any unconnected east or west side is forced to `Side`, and
symmetrically for east/west forcing north/south. -/
theorem c8_placement_state_characterisation (w : World) (pos : BlockPos)
    (old_props : RedstoneWireLikeProperties) :
    get_placement_state w pos old_props
      = if is_not_connected old_props
            && is_not_connected (resolved w pos old_props.power) then
          resolved w pos old_props.power
        else
          endcap_spec (resolved w pos old_props.power) :=
  get_placement_state_eq w pos old_props

/-- **C9.** Against a fixed world snapshot, invoking
`get_state_for_neighbor_update` a second time on the state id produced by
the first invocation (whatever solidity flag accompanies it) yields the
same state id: the shape recomputation is idempotent, for every triggering
direction. -/
theorem c9_neighbor_update_idempotent (w : World) (pos : BlockPos)
    (state : BlockState) (source_face : BlockDirection)
    (source_block_pos : BlockPos) (b : Bool) :
    get_state_for_neighbor_update w pos
        ⟨get_state_for_neighbor_update w pos state source_face
            source_block_pos, b⟩
        source_face source_block_pos
      = get_state_for_neighbor_update w pos state source_face
          source_block_pos := by
  cases source_face with
  | Down => simp [get_state_for_neighbor_update, can_run_on_top]
  | Up =>
      simp only [get_state_for_neighbor_update, reduceCtorEq, if_false,
        if_true]
      rw [RedstoneWireLikeProperties.decode_to_state_id,
        get_placement_state_idem]
  | North =>
      simp only [get_state_for_neighbor_update, reduceCtorEq, if_false]
      rw [RedstoneWireLikeProperties.decode_to_state_id]
      exact congrArg RedstoneWireLikeProperties.to_state_id
        (side_update_idem w pos _ _ (Or.inl rfl))
  | South =>
      simp only [get_state_for_neighbor_update, reduceCtorEq, if_false]
      rw [RedstoneWireLikeProperties.decode_to_state_id]
      exact congrArg RedstoneWireLikeProperties.to_state_id
        (side_update_idem w pos _ _ (Or.inr (Or.inl rfl)))
  | West =>
      simp only [get_state_for_neighbor_update, reduceCtorEq, if_false]
      rw [RedstoneWireLikeProperties.decode_to_state_id]
      exact congrArg RedstoneWireLikeProperties.to_state_id
        (side_update_idem w pos _ _ (Or.inr (Or.inr (Or.inl rfl))))
  | East =>
      simp only [get_state_for_neighbor_update, reduceCtorEq, if_false]
      rw [RedstoneWireLikeProperties.decode_to_state_id]
      exact congrArg RedstoneWireLikeProperties.to_state_id
        (side_update_idem w pos _ _ (Or.inr (Or.inr (Or.inr rfl))))

/-- **C10.** Shape recomputation never changes the stored power:
`get_placement_state` preserves the power field, and the side-update branch
of `get_state_for_neighbor_update` (triggered from a horizontal direction)
produces a state id whose decoded power equals the old decoded power. -/
theorem c10_power_frame (w : World) (pos : BlockPos)
    (old_props : RedstoneWireLikeProperties) (state : BlockState)
    (d : BlockDirection) (spos : BlockPos) (hd : Horiz d) :
    (get_placement_state w pos old_props).power = old_props.power
    ∧ (RedstoneWireLikeProperties.decode
          (get_state_for_neighbor_update w pos state d spos)).power
        = (RedstoneWireLikeProperties.decode state.id).power := by
  refine ⟨get_placement_state_power w pos old_props, ?_⟩
  rcases hd with rfl | rfl | rfl | rfl <;>
    · simp only [get_state_for_neighbor_update, reduceCtorEq, if_false]
      rw [RedstoneWireLikeProperties.decode_to_state_id]
      exact side_update_power w pos _ _

/-- Witness for C10 in `W5`, triggered from the east. -/
theorem c10_power_frame_witness :
    (get_placement_state W5 ⟨0, 0, 0⟩ DOT_STATE).power = DOT_STATE.power
    ∧ (RedstoneWireLikeProperties.decode
          (get_state_for_neighbor_update W5 ⟨0, 0, 0⟩ ⟨0, false⟩
            BlockDirection.East ⟨1, 0, 0⟩)).power
        = (RedstoneWireLikeProperties.decode
            (BlockState.mk 0 false).id).power :=
  c10_power_frame W5 ⟨0, 0, 0⟩ DOT_STATE ⟨0, false⟩ BlockDirection.East
    ⟨1, 0, 0⟩ (Or.inr (Or.inr (Or.inr rfl)))

end Pumpkin
